import Mathlib

/-!
Verification of the time widget of the i3rustus status-line generator:
the TZif structural decoder, the civil-time converter and the Time fact
provider (src/widgets/time.rs), over a shallow embedding.

Rust panics (slice out of bounds, Vec index out of bounds) are embedded as
the `Fatal` error of an `Except`; integer overflow is embedded with the
release-profile two's-complement wrapping semantics, noted at each site.
-/

set_option maxRecDepth 100000

namespace I3

/-- A fatal abort of a decode pass (a Rust panic): either the cursor buffer
was asked for more bytes than remain, or a Vec was indexed out of bounds. -/
inductive Fatal where
  | underrun
  | oob
deriving DecidableEq

/-- Modelled from the spec: the Cursor Buffer (`WalkingVec`, whose source
file is not part of the parsed sources) owns a byte sequence and a
monotonically advancing read position. Bytes are naturals below 256. -/
structure WalkingVec where
  buffer : List Nat
  position : Nat
deriving DecidableEq

/-- Modelled from the spec: `advance(n)` returns the consumed slice of
length `n` and advances the cursor; requesting more bytes than remain is a
fatal bounds failure (a panic in the Rust implementation). -/
def WalkingVec.walk (v : WalkingVec) (n : Nat) : Except Fatal (List Nat × WalkingVec) :=
  if v.position + n ≤ v.buffer.length then
    .ok ((v.buffer.drop v.position).take n, ⟨v.buffer, v.position + n⟩)
  else
    .error .underrun

/-- `from_le_bytes`: little-endian interpretation, first byte least
significant (the `walk_to_number` macro). -/
def leBytesToNat : List Nat → Nat
  | [] => 0
  | b :: bs => b + 256 * leBytesToNat bs

/-- Reinterpret a `w`-bit unsigned value as two's-complement signed. -/
def toSigned (w n : Nat) : Int :=
  if n < 2 ^ (w - 1) then (n : Int) else (n : Int) - 2 ^ w

/-- The four ASCII magic bytes of a TZif file. -/
def tzifMagic : List Nat := [0x54, 0x5A, 0x69, 0x66]

/-- The version-byte table of `read_tz_info`: 0x00 is version 1, 0x32
version 2, 0x33 version 3, 0x34 version 4, anything else is rejected. -/
def decode_version (b : Nat) : Option Nat :=
  if b = 0x00 then some 1
  else if b = 0x32 then some 2
  else if b = 0x33 then some 3
  else if b = 0x34 then some 4
  else none

/-- `header.typecnt - 1` at type `u32`: two's-complement wrapping
subtraction (release-profile semantics of the Rust `u32` subtraction). -/
def wsub32 (a b : Nat) : Nat := (a + 2 ^ 32 - b) % 2 ^ 32

/-- The Rust expression `2_i32.pow(32)` under 32-bit wrapping arithmetic:
it wraps to 0 (release-profile semantics). -/
def i32_two_pow_32 : Int := ((2 ^ 32 % 2 ^ 32 : Nat) : Int)

/-
    +---------------+---+
    |  magic    (4) |ver|
    +---------------+---+---------------------------------------+
    |           [unused - reserved for future use] (15)         |
    +---------------+---------------+---------------+-----------+
    |  isutcnt  (4) |  isstdcnt (4) |  leapcnt  (4) |
    +---------------+---------------+---------------+
    |  timecnt  (4) |  typecnt  (4) |  charcnt  (4) |
    +---------------+---------------+---------------+
-/
structure TzHeader where
  version : Nat
  isutcnt : Nat
  isstdcnt : Nat
  leapcnt : Nat
  timecnt : Nat
  typecnt : Nat
  charcnt : Nat
deriving DecidableEq

structure TzDataBlock where
  transition_times : List Int
  transition_types : List Nat
  local_time_type_records : List (Int × Nat × Nat)
  time_zone_designations : List Nat
  leap_second_records : List (Nat × Int)
  standard_wall_indicators : List Nat
  ut_local_indicators : List Nat
deriving DecidableEq

/-- The transition-time loop of `read_tz_info`: the Rust code iterates
`count` times, each iteration reading one `width`-byte signed value and
keeping it when it is greater than `-2^59`. `read_tz_info` passes
`count = timecnt * time_size`, as the source does. -/
def transLoop (width count : Nat) (buf : WalkingVec) : Except Fatal (List Int × WalkingVec) :=
  match count with
  | 0 => .ok ([], buf)
  | c + 1 =>
    match buf.walk width with
    | .error e => .error e
    | .ok (bs, buf1) =>
      match transLoop width c buf1 with
      | .error e => .error e
      | .ok (rest, buf2) =>
        if toSigned (8 * width) (leBytesToNat bs) > -(2 : Int) ^ 59 then
          .ok (toSigned (8 * width) (leBytesToNat bs) :: rest, buf2)
        else
          .ok (rest, buf2)

/-- The `walk_until_with_condition` macro at element type `u8`: read
`count` single bytes, keep those satisfying `pred`. -/
def filterLoop (count : Nat) (pred : Nat → Bool) (buf : WalkingVec) :
    Except Fatal (List Nat × WalkingVec) :=
  match count with
  | 0 => .ok ([], buf)
  | c + 1 =>
    match buf.walk 1 with
    | .error e => .error e
    | .ok (bs, buf1) =>
      match filterLoop c pred buf1 with
      | .error e => .error e
      | .ok (rest, buf2) =>
        if pred (leBytesToNat bs) then
          .ok (leBytesToNat bs :: rest, buf2)
        else
          .ok (rest, buf2)

/-- The retention condition of the local-time-type loop, exactly as in the
source: `(utoff != -2_i32.pow(32) && utoff > -89999 && utoff < 93599) &&
(dst == 0 || dst == 1)`, with `-2_i32.pow(32)` wrapping to 0. -/
def LTTKeep (utoff : Int) (dst : Nat) : Prop :=
  (utoff ≠ -i32_two_pow_32 ∧ utoff > -89999 ∧ utoff < 93599) ∧ (dst = 0 ∨ dst = 1)

instance (utoff : Int) (dst : Nat) : Decidable (LTTKeep utoff dst) := by
  unfold LTTKeep
  infer_instance

/-- The local-time-type loop of `read_tz_info`: `count` iterations, each
reading a 4-byte signed `utoff`, a 1-byte `dst` and a 1-byte `idx`, and
keeping the record when `LTTKeep` holds. -/
def localTypesLoop (count : Nat) (buf : WalkingVec) :
    Except Fatal (List (Int × Nat × Nat) × WalkingVec) :=
  match count with
  | 0 => .ok ([], buf)
  | c + 1 =>
    match buf.walk 4 with
    | .error e => .error e
    | .ok (ub, buf1) =>
      match buf1.walk 1 with
      | .error e => .error e
      | .ok (db, buf2) =>
        match buf2.walk 1 with
        | .error e => .error e
        | .ok (ib, buf3) =>
          match localTypesLoop c buf3 with
          | .error e => .error e
          | .ok (rest, buf4) =>
            if LTTKeep (toSigned 32 (leBytesToNat ub)) (leBytesToNat db) then
              .ok ((toSigned 32 (leBytesToNat ub), leBytesToNat db, leBytesToNat ib) :: rest, buf4)
            else
              .ok (rest, buf4)

/-- The leap-second loop of `read_tz_info`: `count = typecnt` iterations
over loop counter `index`, each reading an occurrence (`width` bytes,
unsigned) and a 4-byte signed correction. The record is pushed when
`index == 0`, and otherwise the source evaluates
`occur - data.leap_second_records[index].0 >= 2419199`: the Vec access at
the loop counter `index` panics when `index` is out of bounds, and the
subtraction is 64-bit wrapping (release-profile semantics). -/
def leapLoop (width count index : Nat) (acc : List (Nat × Int)) (buf : WalkingVec) :
    Except Fatal (List (Nat × Int) × WalkingVec) :=
  match count with
  | 0 => .ok (acc, buf)
  | c + 1 =>
    match buf.walk width with
    | .error e => .error e
    | .ok (ob, buf1) =>
      match buf1.walk 4 with
      | .error e => .error e
      | .ok (cb, buf2) =>
        if index = 0 then
          leapLoop width c (index + 1) (acc ++ [(leBytesToNat ob, toSigned 32 (leBytesToNat cb))]) buf2
        else
          match acc.get? index with
          | none => .error .oob
          | some prev =>
            if (leBytesToNat ob + 2 ^ 64 - prev.1) % 2 ^ 64 ≥ 2419199 then
              leapLoop width c (index + 1) (acc ++ [(leBytesToNat ob, toSigned 32 (leBytesToNat cb))]) buf2
            else
              leapLoop width c (index + 1) acc buf2

/-- The body of `read_tz_info` after magic and version have been accepted:
skip the 15 reserved bytes, read the six header counts in source order,
then read the seven data-block arrays. -/
def readBody (version : Nat) (buf : WalkingVec) :
    Except Fatal (Option ((TzHeader × TzDataBlock) × WalkingVec)) :=
  match buf.walk 15 with
  | .error e => .error e
  | .ok (_, buf1) =>
    match buf1.walk 4 with
    | .error e => .error e
    | .ok (b1, buf2) =>
      match buf2.walk 4 with
      | .error e => .error e
      | .ok (b2, buf3) =>
        match buf3.walk 4 with
        | .error e => .error e
        | .ok (b3, buf4) =>
          match buf4.walk 4 with
          | .error e => .error e
          | .ok (b4, buf5) =>
            match buf5.walk 4 with
            | .error e => .error e
            | .ok (b5, buf6) =>
              match buf6.walk 4 with
              | .error e => .error e
              | .ok (b6, buf7) =>
                let isutcnt := leBytesToNat b1
                let isstdcnt := leBytesToNat b2
                let leapcnt := leBytesToNat b3
                let timecnt := leBytesToNat b4
                let typecnt := leBytesToNat b5
                let charcnt := leBytesToNat b6
                let time_size := if version > 1 then 8 else 4
                match transLoop time_size ((timecnt * time_size) % 2 ^ 32) buf7 with
                | .error e => .error e
                | .ok (tt, buf8) =>
                  match filterLoop timecnt (fun v => decide (v < wsub32 typecnt 1)) buf8 with
                  | .error e => .error e
                  | .ok (ttypes, buf9) =>
                    match localTypesLoop typecnt buf9 with
                    | .error e => .error e
                    | .ok (ltr, buf10) =>
                      match filterLoop charcnt (fun v => decide (v < wsub32 typecnt 1)) buf10 with
                      | .error e => .error e
                      | .ok (tzd, buf11) =>
                        match leapLoop time_size typecnt 0 [] buf11 with
                        | .error e => .error e
                        | .ok (leaps, buf12) =>
                          match filterLoop isstdcnt (fun v => v == 0 || v == 1) buf12 with
                          | .error e => .error e
                          | .ok (std, buf13) =>
                            match filterLoop isutcnt (fun v => v == 0 || v == 1) buf13 with
                            | .error e => .error e
                            | .ok (ut, buf14) =>
                              .ok (some ((⟨version, isutcnt, isstdcnt, leapcnt, timecnt, typecnt, charcnt⟩,
                                ⟨tt, ttypes, ltr, tzd, leaps, std, ut⟩), buf14))

/-- `Time::read_tz_info`: reject (returning `None`, embedded `.ok none`)
when the magic signature does not match or the version byte is
unrecognised, otherwise decode header and data block. -/
def read_tz_info (buf : WalkingVec) :
    Except Fatal (Option ((TzHeader × TzDataBlock) × WalkingVec)) :=
  match buf.walk 4 with
  | .error e => .error e
  | .ok (magic, buf1) =>
    if magic ≠ tzifMagic then
      .ok none
    else
      match buf1.walk 1 with
      | .error e => .error e
      | .ok (vb, buf2) =>
        match decode_version (leBytesToNat vb) with
        | none => .ok none
        | some version => readBody version buf2

/-- `Time::timezone_offset`, with the bytes of the configured time-zone
file passed as the argument: the offset is the constant 0; when the first
decode succeeds with version above 1 a second decode runs on the remaining
bytes and its parsed value is discarded. -/
def timezone_offset (buf : WalkingVec) : Except Fatal Nat :=
  match read_tz_info buf with
  | .error e => .error e
  | .ok none => .ok 0
  | .ok (some ((header, _), rest)) =>
    if header.version > 1 then
      match read_tz_info rest with
      | .error e => .error e
      | .ok _ => .ok 0
    else
      .ok 0

/-- Modelled from the spec: the neutral display color constant `NEUTRAL`
(its defining source file is not part of the parsed sources; the concrete
color value is immaterial to every claim). -/
def NEUTRAL : String := "#FFFFFF"

/-- The `Time` widget: widget name, the text shown in the status bar, the
text color, and the timezone offset. -/
structure Time where
  name : String
  full_text : String
  color : String
  tz_offset : Nat
deriving DecidableEq

/-- `Time::new`, with the bytes of the configured time-zone file passed as
the argument: the offset is computed once here by `timezone_offset`. -/
def Time.new (buf : WalkingVec) : Except Fatal Time :=
  match timezone_offset buf with
  | .error e => .error e
  | .ok off => .ok (Time.mk ("time") ("") NEUTRAL off)

def SECONDS_IN_A_MINUTE : Nat := 60
def SECONDS_IN_AN_HOUR : Nat := 60 * 60
def SECONDS_IN_A_DAY : Nat := 24 * 60 * 60

/-- `Time::is_leap_year`. -/
def is_leap_year (year : Nat) : Bool :=
  (year % 4 == 0 && year % 100 != 0) || year % 400 == 0

/-- `Time::days_in_year`. -/
def days_in_year (year : Nat) : Nat :=
  if is_leap_year year then 366 else 365

/-- `Time::days_in_month`: the catch-all arm of the Rust match is a panic
(the source comment calls it unreachable), embedded as `none`. -/
def days_in_month (month year : Nat) : Option Nat :=
  match month with
  | 1 | 3 | 5 | 7 | 8 | 10 | 12 => some 31
  | 4 | 6 | 9 | 11 => some 30
  | 2 => some (if is_leap_year year then 29 else 28)
  | _ => none

lemma days_in_year_ge (year : Nat) : 365 ≤ days_in_year year := by
  unfold days_in_year
  split <;> omega

lemma days_in_month_pos (m y d : Nat) (h : days_in_month m y = some d) : 0 < d := by
  unfold days_in_month at h
  split at h <;> (try exact Option.noConfusion h) <;>
    (injection h with h) <;> (try split at h) <;> omega

/-- The year loop of `Time::now`: while `total_days >= days_in_year(year)`
subtract that count and increment the year. -/
def yearLoop (year days : Nat) : Nat × Nat :=
  if _h : days_in_year year ≤ days then
    yearLoop (year + 1) (days - days_in_year year)
  else
    (year, days)
termination_by days
decreasing_by
  have := days_in_year_ge year
  omega

/-- The month loop of `Time::now`: while `total_days >=
days_in_month(month, year)` subtract that count and increment the month;
a panic inside `days_in_month` propagates as `none`. -/
def monthLoop (month year days : Nat) : Option (Nat × Nat) :=
  match hd : days_in_month month year with
  | none => none
  | some d =>
    if _h : d ≤ days then
      monthLoop (month + 1) year (days - d)
    else
      some (month, days)
termination_by days
decreasing_by
  have := days_in_month_pos month year d hd
  omega

/-- The Rust format specifier `{:02}`: zero-pad to two digits. -/
def pad2 (n : Nat) : String :=
  if n < 10 then ("0") ++ Nat.repr n else Nat.repr n

/-- `Time::now`, with the wall-clock seconds passed as the argument: add
the stored offset (64-bit wrapping addition of two `u64` values), split
into days/hours/minutes/seconds, run the year and month loops, and render
`DD.MM.YYYY HH:MM:SS`. -/
def Time.now (t : Time) (secs : Nat) : Option String :=
  let epoch0 := (secs + t.tz_offset) % 2 ^ 64
  let total_days := epoch0 / SECONDS_IN_A_DAY
  let epoch1 := epoch0 % SECONDS_IN_A_DAY
  let hours := epoch1 / SECONDS_IN_AN_HOUR
  let epoch2 := epoch1 % SECONDS_IN_AN_HOUR
  let minutes := epoch2 / SECONDS_IN_A_MINUTE
  let seconds := epoch2 % SECONDS_IN_A_MINUTE
  let yr := yearLoop 1970 total_days
  match monthLoop 1 yr.1 yr.2 with
  | none => none
  | some md =>
    some (pad2 (md.2 + 1) ++ (".") ++ pad2 md.1 ++ (".") ++ Nat.repr yr.1 ++ (" ") ++
      pad2 hours ++ (":") ++ pad2 minutes ++ (":") ++ pad2 seconds)

/-- `<Time as Widget>::update`: recompute `full_text` from `now`; every
other field is copied unchanged. -/
def Time.update (t : Time) (secs : Nat) : Option Time :=
  match Time.now t secs with
  | none => none
  | some str => some (Time.mk t.name str t.color t.tz_offset)

/-! ## Spec-side definitions

Definitions written from the wording of the specification, to be compared
with the source-translated definitions above. -/

/-- Spec wording, section 4.4 step 3: a year is a leap year when
`(year%4==0 && year%100!=0) || year%400==0`. -/
def specIsLeap (year : Nat) : Bool :=
  (year % 4 == 0 && year % 100 != 0) || year % 400 == 0

/-- Spec wording, section 4.4 step 3: the day-count of a year is 366 for a
leap year, else 365. -/
def specDaysInYear (year : Nat) : Nat :=
  if specIsLeap year then 366 else 365

/-- Spec wording, section 4.4 step 4: the day-count of a month,
`31/30/28-or-29 per standard Gregorian rule, leap year affecting
February` (total; the converter only evaluates it at months 1..12). -/
def specDaysInMonth (leap : Bool) (m : Nat) : Nat :=
  if m = 2 then (if leap then 29 else 28)
  else if m = 4 ∨ m = 6 ∨ m = 9 ∨ m = 11 then 30
  else 31

lemma specDaysInMonth_ge (leap : Bool) (m : Nat) : 28 ≤ specDaysInMonth leap m := by
  unfold specDaysInMonth
  split
  · split <;> omega
  · split <;> omega

/-- Spec wording, section 4.4 step 3: starting at 1970, repeatedly
subtract the day-count of the current year while `total_days` is at least
that count, incrementing the year. -/
def specYearLoop (year days : Nat) : Nat × Nat :=
  if _h : specDaysInYear year ≤ days then
    specYearLoop (year + 1) (days - specDaysInYear year)
  else
    (year, days)
termination_by days
decreasing_by
  have h365 : 365 ≤ specDaysInYear year := by
    unfold specDaysInYear
    split <;> omega
  omega

/-- Spec wording, section 4.4 step 4: starting at month 1, repeatedly
subtract the day-count of the current month while `total_days` is at least
that count, incrementing the month. -/
def specMonthLoop (month : Nat) (leap : Bool) (days : Nat) : Nat × Nat :=
  if _h : specDaysInMonth leap month ≤ days then
    specMonthLoop (month + 1) leap (days - specDaysInMonth leap month)
  else
    (month, days)
termination_by days
decreasing_by
  have := specDaysInMonth_ge leap month
  omega

/-- Spec wording, section 4.4: split the adjusted epoch value with
division and remainder by 86400, 3600 and 60, run the year and month
subtraction loops, set `day = total_days + 1` and render
`DD.MM.YYYY HH:MM:SS` with two-digit zero-padded fields and the year at
natural width. -/
def specCivilRender (adjusted : Nat) : String :=
  let total_days := adjusted / 86400
  let rem0 := adjusted % 86400
  let hours := rem0 / 3600
  let rem1 := rem0 % 3600
  let minutes := rem1 / 60
  let seconds := rem1 % 60
  let yr := specYearLoop 1970 total_days
  let md := specMonthLoop 1 (specIsLeap yr.1) yr.2
  pad2 (md.2 + 1) ++ (".") ++ pad2 md.1 ++ (".") ++ Nat.repr yr.1 ++ (" ") ++
    pad2 hours ++ (":") ++ pad2 minutes ++ (":") ++ pad2 seconds

/-- Spec wording, section 3 row of the local-time-type records: the
decode-all companion of `localTypesLoop` that keeps every decoded record,
used to state which records the loop retains. Exactly `count` records of
6 bytes (4+1+1) each are decoded. -/
def decodeAllLTT (count : Nat) (buf : WalkingVec) :
    Except Fatal (List (Int × Nat × Nat) × WalkingVec) :=
  match count with
  | 0 => .ok ([], buf)
  | c + 1 =>
    match buf.walk 4 with
    | .error e => .error e
    | .ok (ub, buf1) =>
      match buf1.walk 1 with
      | .error e => .error e
      | .ok (db, buf2) =>
        match buf2.walk 1 with
        | .error e => .error e
        | .ok (ib, buf3) =>
          match decodeAllLTT c buf3 with
          | .error e => .error e
          | .ok (rest, buf4) =>
            .ok ((toSigned 32 (leBytesToNat ub), leBytesToNat db, leBytesToNat ib) :: rest, buf4)

/-- The retention predicate of claim C8 exactly as the claim words it:
`utoff` is not the mathematical integer `-2^32`, lies strictly between
-89999 and 93599, and the dst flag is 0 or 1. -/
def c8_claim_keep (utoff : Int) (dst : Nat) : Prop :=
  utoff ≠ -(2 : Int) ^ 32 ∧ -89999 < utoff ∧ utoff < 93599 ∧ (dst = 0 ∨ dst = 1)

/-- The boolean form of the retention condition actually evaluated by the
source (with the wrapped constant). -/
def keepLTT (r : Int × Nat × Nat) : Bool := decide (LTTKeep r.1 r.2.1)

/-- The total day-count of months `m .. 12` of year `y`, used to bound the
month loop. -/
def sumMonths (m y : Nat) : Nat :=
  if _h : m ≤ 12 then (days_in_month m y).getD 0 + sumMonths (m + 1) y else 0
termination_by 13 - m
decreasing_by omega

/-! ## Concrete input buffers -/

/-- A 44-byte version-2 TZif file: magic, version byte 0x32, 15 reserved
bytes, six zero counts; the data block is empty. -/
def v2HeaderBytes : List Nat :=
  [0x54, 0x5A, 0x69, 0x66, 0x32] ++ List.replicate 15 0 ++ List.replicate 24 0

/-- A 44-byte version-1 TZif file with six zero counts. -/
def v1HeaderBytes : List Nat :=
  [0x54, 0x5A, 0x69, 0x66, 0x00] ++ List.replicate 15 0 ++ List.replicate 24 0

/-- A version-2 file with `timecnt = 1` and `typecnt = 1`: 64 zero bytes
where one 8-byte transition time would lie, one transition-type byte, one
local-time-type record `(3600, 0, 0)`, one leap-second record. -/
def c1bytes : List Nat :=
  [0x54, 0x5A, 0x69, 0x66, 0x32] ++ List.replicate 15 0 ++
    ([0, 0, 0, 0] ++ [0, 0, 0, 0] ++ [0, 0, 0, 0] ++ [1, 0, 0, 0] ++ [1, 0, 0, 0] ++ [0, 0, 0, 0]) ++
    List.replicate 64 0 ++ [0] ++ [16, 14, 0, 0, 0, 0] ++ List.replicate 12 0

/-- A version-1 file with `typecnt = 3`, three local-time-type records
`(3600, 0, 0)` and three leap-second records with occurrences 0, 2419198
and 2419199 (the scenario named by claim C2). -/
def c2bytes : List Nat :=
  [0x54, 0x5A, 0x69, 0x66, 0x00] ++ List.replicate 15 0 ++
    ([0, 0, 0, 0] ++ [0, 0, 0, 0] ++ [0, 0, 0, 0] ++ [0, 0, 0, 0] ++ [3, 0, 0, 0] ++ [0, 0, 0, 0]) ++
    ([16, 14, 0, 0, 0, 0] ++ [16, 14, 0, 0, 0, 0] ++ [16, 14, 0, 0, 0, 0]) ++
    ([0, 0, 0, 0] ++ [0, 0, 0, 0]) ++
    ([254, 238, 36, 0] ++ [0, 0, 0, 0]) ++
    ([255, 238, 36, 0] ++ [0, 0, 0, 0])

/-- A version-≥2 dual-block file: two 44-byte version-2 blocks. -/
def c3bytes : List Nat := v2HeaderBytes ++ v2HeaderBytes

/-- A version-1 file with `typecnt = 1` whose single local-time-type
record has `utoff = 0`, `dst = 0`, `idx = 0`, followed by one leap-second
record. -/
def c8bytes : List Nat :=
  [0x54, 0x5A, 0x69, 0x66, 0x00] ++ List.replicate 15 0 ++
    ([0, 0, 0, 0] ++ [0, 0, 0, 0] ++ [0, 0, 0, 0] ++ [0, 0, 0, 0] ++ [1, 0, 0, 0] ++ [0, 0, 0, 0]) ++
    [0, 0, 0, 0, 0, 0] ++ List.replicate 8 0

/-- The header decoded from every zero-count version-1 file. -/
def hdrV1zero : TzHeader := ⟨1, 0, 0, 0, 0, 0, 0⟩

/-- The header decoded from every zero-count version-2 file. -/
def hdrV2zero : TzHeader := ⟨2, 0, 0, 0, 0, 0, 0⟩

/-- The empty data block. -/
def emptyBlock : TzDataBlock := ⟨[], [], [], [], [], [], []⟩

/-- The transition-time count a buffer decodes to, when decoding
succeeds. -/
def decodedTransitionCount (buf : WalkingVec) : Option Nat :=
  match read_tz_info buf with
  | .ok (some (p, _)) => some p.2.transition_times.length
  | _ => none

/-- The `timecnt` header field a buffer decodes to, when decoding
succeeds. -/
def decodedTimecnt (buf : WalkingVec) : Option Nat :=
  match read_tz_info buf with
  | .ok (some (p, _)) => some p.1.timecnt
  | _ => none

/-- The retained local-time-type records a buffer decodes to, when
decoding succeeds. -/
def decodedLocalTypes (buf : WalkingVec) : Option (List (Int × Nat × Nat)) :=
  match read_tz_info buf with
  | .ok (some (p, _)) => some p.2.local_time_type_records
  | _ => none

/-! ## Calendar lemmas -/

lemma yearLoop_eq (y d : Nat) :
    yearLoop y d = if days_in_year y ≤ d then yearLoop (y + 1) (d - days_in_year y) else (y, d) := by
  conv_lhs => unfold yearLoop
  by_cases h : days_in_year y ≤ d <;> simp [h]

lemma specYearLoop_eq (y d : Nat) :
    specYearLoop y d =
      if specDaysInYear y ≤ d then specYearLoop (y + 1) (d - specDaysInYear y) else (y, d) := by
  conv_lhs => unfold specYearLoop
  by_cases h : specDaysInYear y ≤ d <;> simp [h]

lemma specMonthLoop_eq (m : Nat) (l : Bool) (d : Nat) :
    specMonthLoop m l d =
      if specDaysInMonth l m ≤ d then specMonthLoop (m + 1) l (d - specDaysInMonth l m)
      else (m, d) := by
  conv_lhs => unfold specMonthLoop
  by_cases h : specDaysInMonth l m ≤ d <;> simp [h]

lemma monthLoop_none (m y d : Nat) (h : days_in_month m y = none) : monthLoop m y d = none := by
  unfold monthLoop
  split
  · rfl
  · simp_all

lemma monthLoop_some (m y d dm : Nat) (h : days_in_month m y = some dm) :
    monthLoop m y d = if dm ≤ d then monthLoop (m + 1) y (d - dm) else some (m, d) := by
  conv_lhs => unfold monthLoop
  split
  · simp_all
  · rename_i dd heq
    rw [h] at heq
    injection heq with heq
    subst heq
    by_cases hc : dm ≤ d <;> simp [hc]

lemma spec_days_in_year_agree (y : Nat) : specDaysInYear y = days_in_year y := rfl

lemma spec_is_leap_agree (y : Nat) : specIsLeap y = is_leap_year y := rfl

lemma sumMonths_step (m y : Nat) (h : m ≤ 12) :
    sumMonths m y = (days_in_month m y).getD 0 + sumMonths (m + 1) y := by
  conv_lhs => unfold sumMonths
  rw [dif_pos h]

lemma sumMonths_end (y : Nat) : sumMonths 13 y = 0 := by
  unfold sumMonths
  simp

lemma sumMonths_one (y : Nat) : sumMonths 1 y = days_in_year y := by
  simp [sumMonths_step, sumMonths_end, days_in_month, days_in_year]
  cases h : is_leap_year y <;> simp [h]

lemma days_in_month_isSome (m y : Nat) (h1 : 1 ≤ m) (h2 : m ≤ 12) :
    ∃ v, days_in_month m y = some v := by
  interval_cases m <;> exact ⟨_, rfl⟩

lemma dim_agree (m y dm : Nat) (h1 : 1 ≤ m) (h2 : m ≤ 12)
    (h : days_in_month m y = some dm) : specDaysInMonth (is_leap_year y) m = dm := by
  interval_cases m <;> simp_all [days_in_month, specDaysInMonth]

/-- The year loop agrees with the spec-side year loop and exits with fewer
days remaining than the day-count of the reached year. -/
lemma yearLoop_master (d : Nat) : ∀ y : Nat,
    specYearLoop y d = yearLoop y d ∧
      (yearLoop y d).2 < days_in_year (yearLoop y d).1 := by
  induction d using Nat.strong_induction_on with
  | _ d ih =>
    intro y
    rw [yearLoop_eq, specYearLoop_eq, spec_days_in_year_agree]
    by_cases h : days_in_year y ≤ d
    · have hge := days_in_year_ge y
      have hlt : d - days_in_year y < d := by omega
      rw [if_pos h, if_pos h]
      exact ih (d - days_in_year y) hlt (y + 1)
    · rw [if_neg h, if_neg h]
      exact ⟨rfl, show d < days_in_year y by omega⟩

/-- The month loop, entered at a month in 1..12 with fewer days remaining
than the months up to December can absorb, returns `some`, agrees with
the spec-side month loop, and exits at a month in 1..12 with fewer days
remaining than that month holds. -/
lemma monthLoop_master : ∀ n m y d : Nat, 1 ≤ m → m ≤ 12 → 13 - m ≤ n →
    d < sumMonths m y →
    ∃ mo dr dm : Nat, monthLoop m y d = some (mo, dr) ∧
      specMonthLoop m (is_leap_year y) d = (mo, dr) ∧
      1 ≤ mo ∧ mo ≤ 12 ∧ days_in_month mo y = some dm ∧ dr < dm := by
  intro n
  induction n with
  | zero =>
    intro m y d h1 h2 h3 h4
    omega
  | succ n ih =>
    intro m y d h1 h2 h3 h4
    obtain ⟨dm, hdm⟩ := days_in_month_isSome m y h1 h2
    have hsd : specDaysInMonth (is_leap_year y) m = dm := dim_agree m y dm h1 h2 hdm
    rw [monthLoop_some m y d dm hdm, specMonthLoop_eq, hsd]
    have hsum : sumMonths m y = dm + sumMonths (m + 1) y := by
      rw [sumMonths_step m y h2, hdm]
      rfl
    by_cases hc : dm ≤ d
    · have hm12 : m ≠ 12 := by
        intro he
        subst he
        rw [sumMonths_step 12 y (by omega), sumMonths_end, hdm] at h4
        simp at h4
        omega
      simp only [if_pos hc]
      exact ih (m + 1) y (d - dm) (by omega) (by omega) (by omega) (by omega)
    · simp only [if_neg hc]
      exact ⟨m, d, dm, rfl, rfl, h1, h2, hdm, by omega⟩

/-- `Time::now` never takes the panic branch of `days_in_month` and its
result is exactly the spec-side rendering of the adjusted epoch value. -/
lemma now_spec (t : Time) (secs : Nat) :
    Time.now t secs = some (specCivilRender ((secs + t.tz_offset) % 2 ^ 64)) := by
  obtain ⟨hyeq, hylt⟩ := yearLoop_master ((secs + t.tz_offset) % 2 ^ 64 / 86400) 1970
  obtain ⟨mo, dr, dm, hml, hsp, _, _, _, _⟩ :=
    monthLoop_master 12 1 (yearLoop 1970 ((secs + t.tz_offset) % 2 ^ 64 / 86400)).1
      (yearLoop 1970 ((secs + t.tz_offset) % 2 ^ 64 / 86400)).2 (by omega) (by omega) (by omega)
      (by rw [sumMonths_one]; exact hylt)
  unfold Time.now specCivilRender
  simp only [show SECONDS_IN_A_DAY = 86400 from rfl, show SECONDS_IN_AN_HOUR = 3600 from rfl,
    show SECONDS_IN_A_MINUTE = 60 from rfl, spec_is_leap_agree, hyeq, hml, hsp]

/-! ## Decoder lemmas -/

lemma walk_ok (v : WalkingVec) (n : Nat) (h : v.position + n ≤ v.buffer.length) :
    v.walk n = .ok ((v.buffer.drop v.position).take n, ⟨v.buffer, v.position + n⟩) := by
  unfold WalkingVec.walk
  rw [if_pos h]

lemma walk_ok_inv (v : WalkingVec) (n : Nat) (bs : List Nat) (v2 : WalkingVec)
    (h : v.walk n = .ok (bs, v2)) :
    bs = (v.buffer.drop v.position).take n ∧ v2 = WalkingVec.mk v.buffer (v.position + n) := by
  unfold WalkingVec.walk at h
  split at h
  · rw [Except.ok.injEq, Prod.mk.injEq] at h
    exact ⟨h.1.symm, h.2.symm⟩
  · exact Except.noConfusion h

/-- The header produced by `readBody` carries the version passed in. -/
lemma readBody_version (v : Nat) (b : WalkingVec) (hdr : TzHeader) (blk : TzDataBlock)
    (r : WalkingVec) (h : readBody v b = .ok (some ((hdr, blk), r))) : hdr.version = v := by
  unfold readBody at h
  dsimp only [] at h
  repeat' split at h
  all_goals try exact Except.noConfusion h
  simp only [Except.ok.injEq, Option.some.injEq, Prod.mk.injEq] at h
  obtain ⟨⟨h1, _⟩, _⟩ := h
  rw [← h1]

/-- A successful `read_tz_info` decoded the version byte (the fifth byte
of the buffer) through the version table. -/
lemma read_success_version (buf : WalkingVec) (hdr : TzHeader) (blk : TzDataBlock)
    (rest : WalkingVec) (h : read_tz_info buf = .ok (some ((hdr, blk), rest))) :
    decode_version (leBytesToNat ((buf.buffer.drop (buf.position + 4)).take 1)) =
      some hdr.version := by
  unfold read_tz_info at h
  split at h
  · exact Except.noConfusion h
  · rename_i magic buf1 h4
    split at h
    · exact Option.noConfusion (Except.ok.inj h)
    · split at h
      · exact Except.noConfusion h
      · rename_i vb buf2 h1
        split at h
        · exact Option.noConfusion (Except.ok.inj h)
        · rename_i version hdv
          obtain ⟨hbs4, hb1⟩ := walk_ok_inv buf 4 magic buf1 h4
          obtain ⟨hbs1, hb2⟩ := walk_ok_inv buf1 1 vb buf2 h1
          have hv2 := readBody_version version buf2 hdr blk rest h
          rw [hv2, ← hdv]
          subst hb1
          rw [hbs1]

lemma read_reject_magic (buf : WalkingVec) (hb : buf.position + 4 ≤ buf.buffer.length)
    (hm : (buf.buffer.drop buf.position).take 4 ≠ tzifMagic) : read_tz_info buf = .ok none := by
  unfold read_tz_info
  rw [walk_ok buf 4 hb]
  simp [hm]

lemma read_reject_version (buf : WalkingVec) (hb : buf.position + 5 ≤ buf.buffer.length)
    (hm : (buf.buffer.drop buf.position).take 4 = tzifMagic)
    (hv : decode_version (leBytesToNat ((buf.buffer.drop (buf.position + 4)).take 1)) = none) :
    read_tz_info buf = .ok none := by
  unfold read_tz_info
  rw [walk_ok buf 4 (by omega)]
  have hw1 : (WalkingVec.mk buf.buffer (buf.position + 4)).walk 1 =
      .ok ((buf.buffer.drop (buf.position + 4)).take 1,
        ⟨buf.buffer, buf.position + 4 + 1⟩) := by
    apply walk_ok
    simpa using by omega
  simp [hm, hw1, hv]

/-- The retained local-time-type records are exactly the decoded records
passing the source condition. -/
lemma localTypes_filter : ∀ (count : Nat) (buf : WalkingVec),
    localTypesLoop count buf =
      Except.map (fun p => (List.filter keepLTT p.1, p.2)) (decodeAllLTT count buf) := by
  intro count
  induction count with
  | zero =>
    intro buf
    rfl
  | succ c ih =>
    intro buf
    unfold localTypesLoop decodeAllLTT
    cases h4 : buf.walk 4 with
    | error e => simp only [h4]; rfl
    | ok p4 =>
      obtain ⟨ub, buf1⟩ := p4
      simp only [h4]
      cases h1 : buf1.walk 1 with
      | error e => simp only [h1]; rfl
      | ok p1 =>
        obtain ⟨db, buf2⟩ := p1
        simp only [h1]
        cases h2 : buf2.walk 1 with
        | error e => simp only [h2]; rfl
        | ok p2 =>
          obtain ⟨ib, buf3⟩ := p2
          simp only [h2]
          rw [ih buf3]
          cases hr : decodeAllLTT c buf3 with
          | error e => simp only [hr]; rfl
          | ok pr =>
            obtain ⟨rest, buf4⟩ := pr
            simp only [hr]
            by_cases hk : LTTKeep (toSigned 32 (leBytesToNat ub)) (leBytesToNat db)
            · simp [Except.map, List.filter_cons, keepLTT, hk]
            · simp [Except.map, List.filter_cons, keepLTT, hk]

/-- `decodeAllLTT` decodes exactly `count` records of 6 bytes each. -/
lemma decodeAllLTT_spec : ∀ (count : Nat) (buf : WalkingVec) (recs : List (Int × Nat × Nat))
    (bufEnd : WalkingVec), decodeAllLTT count buf = .ok (recs, bufEnd) →
    recs.length = count ∧ bufEnd.position = buf.position + 6 * count := by
  intro count
  induction count with
  | zero =>
    intro buf recs bufEnd h
    rw [show decodeAllLTT 0 buf = .ok ([], buf) from rfl, Except.ok.injEq, Prod.mk.injEq] at h
    obtain ⟨h1, h2⟩ := h
    subst h1
    subst h2
    exact ⟨rfl, rfl⟩
  | succ c ih =>
    intro buf recs bufEnd h
    unfold decodeAllLTT at h
    split at h
    · exact Except.noConfusion h
    · rename_i ub buf1 h4
      split at h
      · exact Except.noConfusion h
      · rename_i db bufB h1
        split at h
        · exact Except.noConfusion h
        · rename_i ib buf3 h2
          split at h
          · exact Except.noConfusion h
          · rename_i rest buf4 hrec
            rw [Except.ok.injEq, Prod.mk.injEq] at h
            obtain ⟨hrecs, hbuf⟩ := h
            obtain ⟨hl, hp⟩ := ih buf3 rest buf4 hrec
            obtain ⟨_, hb4⟩ := walk_ok_inv buf 4 ub buf1 h4
            obtain ⟨_, hb1⟩ := walk_ok_inv buf1 1 db bufB h1
            obtain ⟨_, hb2⟩ := walk_ok_inv bufB 1 ib buf3 h2
            subst hrecs
            subst hbuf
            subst hb4
            subst hb1
            subst hb2
            refine ⟨by simp [hl], ?_⟩
            simp at hp
            simp [hp]
            omega

/-- Every value `timezone_offset` returns is 0. -/
lemma tz_offset_zero (buf : WalkingVec) (off : Nat) (h : timezone_offset buf = .ok off) :
    off = 0 := by
  unfold timezone_offset at h
  repeat' split at h
  all_goals first
    | exact Except.noConfusion h
    | (injection h with h; omega)

lemma tz_offset_reject (buf : WalkingVec) (h : read_tz_info buf = .ok none) :
    timezone_offset buf = .ok 0 := by
  unfold timezone_offset
  rw [h]

lemma new_of_reject (buf : WalkingVec) (h : read_tz_info buf = .ok none) :
    Time.new buf = .ok (Time.mk ("time") ("") NEUTRAL 0) := by
  unfold Time.new
  rw [tz_offset_reject buf h]

lemma new_tz_zero (buf : WalkingVec) (t : Time) (h : Time.new buf = .ok t) :
    t.tz_offset = 0 := by
  unfold Time.new at h
  split at h
  · exact Except.noConfusion h
  · rename_i off heq
    injection h with h
    rw [← h]
    exact tz_offset_zero buf off heq

/-- `update` maps the widget to a copy whose only changed field is
`full_text`. -/
lemma update_shape (t : Time) (secs : Nat) (t2 : Time) (h : Time.update t secs = some t2) :
    t2 = Time.mk t.name (specCivilRender ((secs + t.tz_offset) % 2 ^ 64)) t.color t.tz_offset := by
  unfold Time.update at h
  rw [now_spec] at h
  simp only [Option.some.injEq] at h
  exact h.symm

lemma spec_yl0 : specYearLoop 1970 0 = (1970, 0) := by
  rw [specYearLoop_eq]
  norm_num [specDaysInYear, specIsLeap]

lemma spec_ml0 : specMonthLoop 1 (specIsLeap 1970) 0 = (1, 0) := by
  rw [specMonthLoop_eq]
  norm_num [specDaysInMonth]

lemma specRender_zero : specCivilRender 0 = ("01.01.1970 00:00:00") := by
  unfold specCivilRender
  simp only [Nat.zero_div, Nat.zero_mod, spec_yl0, spec_ml0]
  rfl

lemma update_eval : Time.update (Time.mk ("time") ("") NEUTRAL 0) 0 =
    some (Time.mk ("time") ("01.01.1970 00:00:00") NEUTRAL 0) := by
  unfold Time.update
  rw [now_spec]
  have h0 : ((0 : Nat) + (Time.mk ("time") ("") NEUTRAL 0).tz_offset) % 2 ^ 64 = 0 := by
    norm_num
  rw [h0, specRender_zero]

/-! ## Claim theorems -/

/-- Claim C1: the claim states the decoder reads exactly `timecnt`
transition-time elements, so the retained list has length at most
`timecnt`. The code instead loops `timecnt * time_size` times, reading a
full element each iteration: on a version-2 file with `timecnt = 1` it
decodes 8 eight-byte elements and retains all 8 of them, against the
claimed bound of 1. -/
theorem time_c1_overread :
    decodedTransitionCount (WalkingVec.mk c1bytes 0) = some 8 ∧
      decodedTimecnt (WalkingVec.mk c1bytes 0) = some 1 :=
  ⟨rfl, rfl⟩

/-- Claim C2: the claim states a later leap-second record is compared
against the most recently retained record. The code indexes
`leap_second_records[index]` with the loop counter, which is out of
bounds from the second iteration on: on the claim's own scenario
(occurrences 0, 2419198, 2419199) the decode pass aborts with an
out-of-bounds panic instead of retaining the third record. -/
theorem time_c2_leap_oob : read_tz_info (WalkingVec.mk c2bytes 0) = .error .oob := rfl

/-- Claim C3: for a file whose first decode yields version 2 or greater,
`timezone_offset` runs a second decode on the bytes remaining after the
first block, discards the first block's parsed pair entirely (the result
does not depend on it), and the final outcome is determined by the second
decode alone. -/
theorem time_c3_second_block : ∀ (buf : WalkingVec) (hdr : TzHeader) (blk : TzDataBlock)
    (rest : WalkingVec), read_tz_info buf = .ok (some ((hdr, blk), rest)) → 2 ≤ hdr.version →
    timezone_offset buf = Except.map (fun _ => (0 : Nat)) (read_tz_info rest) := by
  intro buf hdr blk rest h hv
  unfold timezone_offset
  rw [h]
  have h1 : hdr.version > 1 := by omega
  simp only [if_pos h1]
  cases hr : read_tz_info rest with
  | error e => simp only [hr]; rfl
  | ok v => simp only [hr]; rfl

/-- Witness for C3 at a concrete dual-block version-2 file. -/
theorem time_c3_witness :
    timezone_offset (WalkingVec.mk c3bytes 0) =
      Except.map (fun _ => (0 : Nat)) (read_tz_info (WalkingVec.mk c3bytes 44)) :=
  time_c3_second_block (WalkingVec.mk c3bytes 0) hdrV2zero emptyBlock
    (WalkingVec.mk c3bytes 44) (by rfl) (by decide)

/-- Claim C4 as amended: for every input the decoder rejects (bad magic or
unrecognised version, returning no result without a bounds panic),
construction of the Time widget succeeds with the fallback offset 0 and
the widget still produces display output. The claim as stated fails
because a decode failure by buffer underrun is a panic that construction
propagates (see the counterexample). -/
theorem time_c4_fallback : ∀ (buf : WalkingVec) (secs : Nat), read_tz_info buf = .ok none →
    ∃ t t2 : Time, Time.new buf = .ok t ∧ t.tz_offset = 0 ∧ Time.update t secs = some t2 ∧
      t2.tz_offset = 0 := by
  intro buf secs h
  refine ⟨Time.mk ("time") ("") NEUTRAL 0,
    Time.mk ("time") (specCivilRender ((secs + 0) % 2 ^ 64)) NEUTRAL 0,
    new_of_reject buf h, rfl, ?_, rfl⟩
  unfold Time.update
  rw [now_spec]

/-- Counterexample to C4 as stated: the empty file is an input on which
decoding fails, yet construction of the Time widget does not succeed — the
underrun panic propagates out of `Time::new`. -/
theorem time_c4_counterexample :
    read_tz_info (WalkingVec.mk ([]) 0) = .error .underrun ∧
      Time.new (WalkingVec.mk ([]) 0) = .error .underrun :=
  ⟨rfl, rfl⟩

/-- Witness for C4 (amended) at a concrete rejected input. -/
theorem time_c4_witness :
    ∃ t t2 : Time, Time.new (WalkingVec.mk ([0, 0, 0, 0]) 0) = .ok t ∧ t.tz_offset = 0 ∧
      Time.update t 0 = some t2 ∧ t2.tz_offset = 0 :=
  time_c4_fallback (WalkingVec.mk ([0, 0, 0, 0]) 0) 0 (by rfl)

/-- Claim C5: every value `timezone_offset` returns is the constant 0,
independent of the parsed records; the offset stored at construction is
that constant, and `update` never changes the stored offset. -/
theorem time_c5_fixed_offset :
    (∀ (buf : WalkingVec) (off : Nat), timezone_offset buf = .ok off → off = 0) ∧
    (∀ (buf : WalkingVec) (t : Time), Time.new buf = .ok t → t.tz_offset = 0) ∧
    (∀ (t : Time) (secs : Nat) (t2 : Time), Time.update t secs = some t2 →
      t2.tz_offset = t.tz_offset) := by
  refine ⟨tz_offset_zero, new_tz_zero, ?_⟩
  intro t secs t2 h
  rw [update_shape t secs t2 h]

/-- Witness for C5 at concrete inputs. -/
theorem time_c5_witness :
    (0 : Nat) = 0 ∧ (Time.mk ("time") ("") NEUTRAL 0).tz_offset = 0 ∧
      (Time.mk ("time") ("01.01.1970 00:00:00") NEUTRAL 0).tz_offset =
        (Time.mk ("time") ("") NEUTRAL 0).tz_offset :=
  ⟨time_c5_fixed_offset.1 (WalkingVec.mk ([0, 0, 0, 0]) 0) 0 (by rfl),
   time_c5_fixed_offset.2.1 (WalkingVec.mk ([0, 0, 0, 0]) 0) (Time.mk ("time") ("") NEUTRAL 0)
     (by rfl),
   time_c5_fixed_offset.2.2 (Time.mk ("time") ("") NEUTRAL 0) 0
     (Time.mk ("time") ("01.01.1970 00:00:00") NEUTRAL 0) update_eval⟩

/-- Claim C6: at adjusted epoch value 0 the converter renders exactly
`01.01.1970 00:00:00`, and for every input the converter's output is the
spec-side rendering: division and remainder by 86400, 3600 and 60,
leap-aware year subtraction from 1970, leap-aware month subtraction from
month 1, day = remaining + 1, rendered `DD.MM.YYYY HH:MM:SS` with
two-digit zero-padded fields and the year at natural width. -/
theorem time_c6_civil :
    (∀ (t : Time) (secs : Nat), (secs + t.tz_offset) % 2 ^ 64 = 0 →
      Time.now t secs = some ("01.01.1970 00:00:00")) ∧
    (∀ (t : Time) (secs : Nat),
      Time.now t secs = some (specCivilRender ((secs + t.tz_offset) % 2 ^ 64))) := by
  constructor
  · intro t secs h0
    rw [now_spec, h0, specRender_zero]
  · exact now_spec

/-- Witness for C6 at epoch 0. -/
theorem time_c6_witness :
    ((0 : Nat) + (Time.mk ("time") ("") NEUTRAL 0).tz_offset) % 2 ^ 64 = 0 ∧
      Time.now (Time.mk ("time") ("") NEUTRAL 0) 0 = some ("01.01.1970 00:00:00") :=
  ⟨by norm_num, time_c6_civil.1 (Time.mk ("time") ("") NEUTRAL 0) 0 (by norm_num)⟩

/-- Claim C7: a buffer whose first four bytes differ from the TZif magic
is rejected with no result; a TZif-prefixed buffer whose version byte is
outside the table is rejected with no result; a successful decode carries
the version obtained from the version byte through the table 0x00 to 1,
0x32 to 2, 0x33 to 3, 0x34 to 4, and every other byte is unrecognised. -/
theorem time_c7_reject :
    (∀ buf : WalkingVec, buf.position + 4 ≤ buf.buffer.length →
      (buf.buffer.drop buf.position).take 4 ≠ tzifMagic → read_tz_info buf = .ok none) ∧
    (∀ buf : WalkingVec, buf.position + 5 ≤ buf.buffer.length →
      (buf.buffer.drop buf.position).take 4 = tzifMagic →
      decode_version (leBytesToNat ((buf.buffer.drop (buf.position + 4)).take 1)) = none →
      read_tz_info buf = .ok none) ∧
    (∀ (buf : WalkingVec) (hdr : TzHeader) (blk : TzDataBlock) (rest : WalkingVec),
      read_tz_info buf = .ok (some ((hdr, blk), rest)) →
      decode_version (leBytesToNat ((buf.buffer.drop (buf.position + 4)).take 1)) =
        some hdr.version) ∧
    decode_version 0x00 = some 1 ∧ decode_version 0x32 = some 2 ∧
    decode_version 0x33 = some 3 ∧ decode_version 0x34 = some 4 ∧
    (∀ b : Nat, b ≠ 0x00 → b ≠ 0x32 → b ≠ 0x33 → b ≠ 0x34 → decode_version b = none) := by
  refine ⟨read_reject_magic, read_reject_version, read_success_version, rfl, rfl, rfl, rfl, ?_⟩
  intro b h0 h2 h3 h4
  unfold decode_version
  rw [if_neg h0, if_neg h2, if_neg h3, if_neg h4]

/-- Witness for C7 at concrete buffers. -/
theorem time_c7_witness :
    read_tz_info (WalkingVec.mk ([0, 0, 0, 0]) 0) = .ok none ∧
      read_tz_info (WalkingVec.mk ([0x54, 0x5A, 0x69, 0x66, 1]) 0) = .ok none ∧
      decode_version (leBytesToNat
        (((WalkingVec.mk v1HeaderBytes 0).buffer.drop
          ((WalkingVec.mk v1HeaderBytes 0).position + 4)).take 1)) = some hdrV1zero.version ∧
      decode_version 77 = none :=
  ⟨time_c7_reject.1 (WalkingVec.mk ([0, 0, 0, 0]) 0) (by decide) (by decide),
   time_c7_reject.2.1 (WalkingVec.mk ([0x54, 0x5A, 0x69, 0x66, 1]) 0) (by decide) (by decide)
     (by decide),
   time_c7_reject.2.2.1 (WalkingVec.mk v1HeaderBytes 0) hdrV1zero emptyBlock
     (WalkingVec.mk v1HeaderBytes 44) (by rfl),
   time_c7_reject.2.2.2.2.2.2.2 77 (by decide) (by decide) (by decide) (by decide)⟩

/-- Claim C8 as amended: a decoded local-time-type record is retained if
and only if it passes the source condition, whose constant
`-2_i32.pow(32)` wraps to 0 in 32-bit arithmetic — so the first conjunct
of the retention condition is `utoff ≠ 0`, not the vacuous
`utoff ≠ -2^32` of the claim; exactly `typecnt` records of 6 bytes each
are decoded. -/
theorem time_c8_retention :
    (∀ (count : Nat) (buf : WalkingVec),
      localTypesLoop count buf =
        Except.map (fun p => (List.filter keepLTT p.1, p.2)) (decodeAllLTT count buf)) ∧
    (∀ (count : Nat) (buf : WalkingVec) (recs : List (Int × Nat × Nat)) (bufEnd : WalkingVec),
      decodeAllLTT count buf = .ok (recs, bufEnd) →
      recs.length = count ∧ bufEnd.position = buf.position + 6 * count) ∧
    -i32_two_pow_32 = (0 : Int) :=
  ⟨localTypes_filter, decodeAllLTT_spec, rfl⟩

/-- Counterexample to C8 as stated: the record `(0, 0, 0)` satisfies the
claim's retention predicate (0 is not the mathematical integer -2^32 and
lies inside the bounds, dst is 0), yet the decoder drops it: the decoded
local-time-type list of a file containing exactly that record is empty. -/
theorem time_c8_counterexample :
    c8_claim_keep 0 0 ∧ decodedLocalTypes (WalkingVec.mk c8bytes 0) = some ([]) :=
  ⟨by norm_num [c8_claim_keep], rfl⟩

/-- Witness for C8 (amended) at a one-record buffer. -/
theorem time_c8_witness :
    localTypesLoop 1 (WalkingVec.mk ([16, 14, 0, 0, 0, 0]) 0) =
        Except.map (fun p => (List.filter keepLTT p.1, p.2))
          (decodeAllLTT 1 (WalkingVec.mk ([16, 14, 0, 0, 0, 0]) 0)) ∧
      ([((3600 : Int), (0 : Nat), (0 : Nat))].length = 1 ∧
        (WalkingVec.mk ([16, 14, 0, 0, 0, 0]) 6).position = 0 + 6 * 1) :=
  ⟨time_c8_retention.1 1 (WalkingVec.mk ([16, 14, 0, 0, 0, 0]) 0),
   time_c8_retention.2.1 1 (WalkingVec.mk ([16, 14, 0, 0, 0, 0]) 0)
     ([((3600 : Int), (0 : Nat), (0 : Nat))]) (WalkingVec.mk ([16, 14, 0, 0, 0, 0]) 6) (by rfl)⟩

/-- Claim C9: `update` changes only the `full_text` field — name, color
and offset keep the values they had before the call. -/
theorem time_c9_frame : ∀ (t : Time) (secs : Nat) (t2 : Time), Time.update t secs = some t2 →
    t2.name = t.name ∧ t2.color = t.color ∧ t2.tz_offset = t.tz_offset := by
  intro t secs t2 h
  rw [update_shape t secs t2 h]
  exact ⟨rfl, rfl, rfl⟩

/-- Witness for C9 at a concrete widget and tick. -/
theorem time_c9_witness :
    (Time.mk ("time") ("01.01.1970 00:00:00") NEUTRAL 0).name =
        (Time.mk ("time") ("") NEUTRAL 0).name ∧
      (Time.mk ("time") ("01.01.1970 00:00:00") NEUTRAL 0).color =
        (Time.mk ("time") ("") NEUTRAL 0).color ∧
      (Time.mk ("time") ("01.01.1970 00:00:00") NEUTRAL 0).tz_offset =
        (Time.mk ("time") ("") NEUTRAL 0).tz_offset :=
  time_c9_frame (Time.mk ("time") ("") NEUTRAL 0) 0
    (Time.mk ("time") ("01.01.1970 00:00:00") NEUTRAL 0) update_eval

/-- Claim C10: both conversion loops terminate (they are definable by
well-founded recursion on the remaining day count), the month loop exits
at a month in 1..12 with fewer days remaining than that month holds — so
`days_in_month` is never evaluated at its panic branch and
day = remaining + 1 lies in 1..days-in-month — and `now` returns a value
for every widget state and every epoch value. -/
theorem time_c10_safety :
    (∀ epoch : Nat, ∃ mo dr dm : Nat,
      monthLoop 1 (yearLoop 1970 (epoch / SECONDS_IN_A_DAY)).1
          (yearLoop 1970 (epoch / SECONDS_IN_A_DAY)).2 = some (mo, dr) ∧
        1 ≤ mo ∧ mo ≤ 12 ∧
        days_in_month mo (yearLoop 1970 (epoch / SECONDS_IN_A_DAY)).1 = some dm ∧
        1 ≤ dr + 1 ∧ dr + 1 ≤ dm) ∧
    (∀ (t : Time) (secs : Nat), (Time.now t secs).isSome = true) := by
  constructor
  · intro epoch
    obtain ⟨_, hylt⟩ := yearLoop_master (epoch / SECONDS_IN_A_DAY) 1970
    obtain ⟨mo, dr, dm, hml, _, h1, h2, hdm, hlt⟩ :=
      monthLoop_master 12 1 (yearLoop 1970 (epoch / SECONDS_IN_A_DAY)).1
        (yearLoop 1970 (epoch / SECONDS_IN_A_DAY)).2 (by omega) (by omega) (by omega)
        (by rw [sumMonths_one]; exact hylt)
    exact ⟨mo, dr, dm, hml, h1, h2, hdm, by omega, by omega⟩
  · intro t secs
    rw [now_spec]
    rfl

end I3
